import Mathlib

/-!
Verification of the projectile / impact-effect core of a small 2D shooter
(`src/bullet.rs`, with the wall from `src/wall.rs` and firing from
`src/player.rs`).

Modelling conventions.
* `f32` scalars are modelled as exact reals (`ℝ`); machine rounding and the
  non-finite values are outside the model.  The one place the source can
  produce non-finite components — `glam`'s unguarded `Vec2::normalize` on a
  zero-length vector (`dir.normalize()` in `Bullet::spawn`) — is modelled by
  the Lean convention `x / 0 = 0`, so the degenerate result is the zero
  vector; exactly as with NaN components, its magnitude is not the speed
  constant and the constant-speed invariant is broken.
* A bullet entity is `Bullet` (fields `lifetime` and `dir` as in the Rust
  struct) together with its transform translation, modelled as field `pos`.
* The collision backend (`rapier.cast_ray_and_get_normal`) is an external
  collaborator; a system step takes the query result (`Option` of impact
  point and unit normal) as an argument.  Its contract — a hit is returned
  iff some obstacle meets the swept segment
  `{origin + t • dir | 0 ≤ t ≤ max_toi}` — is modelled by `castRayHit`
  against an axis-aligned slab obstacle.
* One simulation tick applies the registered systems in registration order
  (`move_bullet`, then `cleanup`, then `despawn_after_lifetime`), with
  deferred despawns taking effect at the tick boundary.
* The GPU emission program generated by `MyPositionCone3dModifier::apply` is
  a straight-line WGSL function of the random samples `rand()`; it is
  transcribed literally (`alphaH`, `alphaR`, `conePos`, `coneBoundary`,
  `emitSpeed`, `emitVelocity`), including the line `let speed = 0.0;//…`
  that hardcodes the emitted speed to zero.
-/

noncomputable section

/-- Planar vector with real components, modelling `glam::Vec2`. -/
@[ext]
structure Vec2 where
  x : ℝ
  y : ℝ

instance : Add Vec2 := ⟨fun a b => ⟨a.x + b.x, a.y + b.y⟩⟩

instance : Sub Vec2 := ⟨fun a b => ⟨a.x - b.x, a.y - b.y⟩⟩

instance : SMul ℝ Vec2 := ⟨fun c v => ⟨c * v.x, c * v.y⟩⟩

theorem Vec2.add_def (a b : Vec2) : a + b = ⟨a.x + b.x, a.y + b.y⟩ := rfl

theorem Vec2.sub_def (a b : Vec2) : a - b = ⟨a.x - b.x, a.y - b.y⟩ := rfl

theorem Vec2.smul_def (c : ℝ) (v : Vec2) : c • v = ⟨c * v.x, c * v.y⟩ := rfl

/-- Dot product of two planar vectors (`Vec2::dot`). -/
def Vec2.dot (a b : Vec2) : ℝ := a.x * b.x + a.y * b.y

/-- Euclidean length of a planar vector (`Vec2::length`). -/
def Vec2.length (v : Vec2) : ℝ := Real.sqrt (v.x ^ 2 + v.y ^ 2)

/-- Normalization `v / |v|` (`Vec2::normalize`); on the zero vector the
division by zero length yields the degenerate zero vector, standing for the
non-finite components `glam` produces there. -/
def Vec2.normalize (v : Vec2) : Vec2 := ⟨v.x / v.length, v.y / v.length⟩

/-- Spatial vector with real components, modelling the WGSL `vec3<f32>`. -/
@[ext]
structure Vec3 where
  x : ℝ
  y : ℝ
  z : ℝ

instance : Sub Vec3 := ⟨fun a b => ⟨a.x - b.x, a.y - b.y, a.z - b.z⟩⟩

instance : SMul ℝ Vec3 := ⟨fun c v => ⟨c * v.x, c * v.y, c * v.z⟩⟩

theorem Vec3.sub_eval (a b : Vec3) : a - b = ⟨a.x - b.x, a.y - b.y, a.z - b.z⟩ := rfl

theorem Vec3.smul_eval (c : ℝ) (v : Vec3) : c • v = ⟨c * v.x, c * v.y, c * v.z⟩ := rfl

/-- Euclidean length of a spatial vector. -/
def Vec3.length (v : Vec3) : ℝ := Real.sqrt (v.x ^ 2 + v.y ^ 2 + v.z ^ 2)

/-- Normalization of a spatial vector (WGSL `normalize`). -/
def Vec3.normalize (v : Vec3) : Vec3 := ⟨v.x / v.length, v.y / v.length, v.z / v.length⟩

/-- Four-quadrant arctangent, modelling `f32::atan2` on finite inputs. -/
def atan2 (y x : ℝ) : ℝ :=
  if 0 < x then Real.arctan (y / x)
  else if x < 0 ∧ 0 ≤ y then Real.arctan (y / x) + Real.pi
  else if x < 0 ∧ y < 0 then Real.arctan (y / x) - Real.pi
  else if x = 0 ∧ 0 < y then Real.pi / 2
  else if x = 0 ∧ y < 0 then -(Real.pi / 2)
  else 0

/-- Fixed bullet speed, `const SPEED: f32 = 1500.0` (bullet.rs line 23). -/
def SPEED : ℝ := 1500

/-- Bullet state: the Rust `Bullet` component (`lifetime`, `dir`) together
with the entity's transform translation `pos` (bullet.rs lines 25-29). -/
structure Bullet where
  pos : Vec2
  dir : Vec2
  lifetime : ℝ

/-- Direction stored by `Bullet::spawn`: `dir.normalize() * SPEED`
(bullet.rs line 37). -/
def Bullet.spawnDir (aim : Vec2) : Vec2 := SPEED • aim.normalize

/-- Bullet constructed by `Bullet::spawn` at position `pos` with aim
direction `aim`: lifetime `1.0`, direction `aim.normalize() * SPEED`
(bullet.rs lines 32-38). -/
def Bullet.spawn (pos aim : Vec2) : Bullet := ⟨pos, Bullet.spawnDir aim, 1⟩

/-- Maximum time of impact passed to `cast_ray_and_get_normal`:
`bullet.dir.length() * time.delta_seconds() / SPEED` (bullet.rs line 63).
The ray parameter multiplies the unnormalized direction, so the swept
segment is `{pos + t • dir | 0 ≤ t ≤ maxToi dir dt}`. -/
def maxToi (dir : Vec2) (dt : ℝ) : ℝ := dir.length * dt / SPEED

/-- Reflected direction computed by the collision response:
`bullet.dir.normalize() - 2 * bullet.dir.normalize().dot(n) * n`
(bullet.rs lines 67-68). -/
def debrisDir (dir n : Vec2) : Vec2 :=
  dir.normalize - (2 * Vec2.dot dir.normalize n) • n

/-- Debris effect entity spawned on impact: transform translation,
z-rotation angle, and the `Lifetime` component value (bullet.rs lines
69-83). -/
structure Debris where
  pos : Vec3
  angle : ℝ
  lifetime : ℝ

/-- Non-colliding branch of `Bullet::move_bullet`: translate by
`dir * delta_seconds` and decrement the lifetime by `delta_seconds`
(bullet.rs lines 85-88). -/
def moveStep (b : Bullet) (dt : ℝ) : Bullet :=
  ⟨b.pos + dt • b.dir, b.dir, b.lifetime - dt⟩

/-- One `Bullet::move_bullet` iteration for one bullet (bullet.rs lines
59-89).  `hit` is the result of the swept collision query (impact point and
unit normal).  Returns the surviving bullet state (`none` when despawned)
and the list of debris effect entities spawned. -/
def move_bullet (b : Bullet) (dt : ℝ) (hit : Option (Vec2 × Vec2)) :
    Option Bullet × List Debris :=
  match hit with
  | some (pt, n) =>
      (none,
        [⟨⟨pt.x, pt.y, 0⟩,
          atan2 (debrisDir b.dir n).y (debrisDir b.dir n).x - Real.pi / 2,
          5⟩])
  | none => (some (moveStep b dt), [])

/-- The `Bullet::cleanup` system for one bullet: despawn when
`bullet.lifetime <= 0.0` (bullet.rs lines 92-98). -/
def Bullet.cleanup (b : Bullet) : Option Bullet :=
  if b.lifetime ≤ 0 then none else some b

/-- One tick of the bullet lifetime pipeline on a non-colliding bullet:
`move_bullet` (which decrements the lifetime), then `cleanup`, in system
registration order (bullet.rs lines 16-19). -/
def bulletTick (b : Bullet) (dt : ℝ) : Option Bullet :=
  Bullet.cleanup (moveStep b dt)

/-- Iterated non-colliding motion: `Bullet::move_bullet`'s else branch over
a list of per-tick elapsed times, ignoring despawns. -/
def runTicks (b : Bullet) (ds : List ℝ) : Bullet := ds.foldl moveStep b

/-- Iterated ticks of the full lifetime pipeline (motion plus `cleanup`),
stopping with `none` once the bullet is despawned. -/
def runAlive (b : Bullet) : List ℝ → Option Bullet
  | [] => some b
  | d :: ds =>
      match bulletTick b d with
      | none => none
      | some b2 => runAlive b2 ds

/-- Entity with the optional components relevant to lifetime management: a
`Bullet` component (bullets, bullet.rs lines 33-49 — note no `Lifetime`
component is inserted there) and a `Lifetime` component (debris effects,
bullet.rs line 82). -/
structure Entity where
  bullet : Option Bullet
  lifetime : Option ℝ

/-- The generic `despawn_after_lifetime` system on one entity: its query
matches exactly the entities with a `Lifetime` component, decrements it by
`delta_seconds`, and despawns the entity when the result is `≤ 0`
(bullet.rs lines 104-115).  Entities without a `Lifetime` component are
untouched. -/
def despawn_after_lifetime (dt : ℝ) (e : Entity) : Option Entity :=
  match e.lifetime with
  | none => some e
  | some l => if l - dt ≤ 0 then none else some ⟨e.bullet, some (l - dt)⟩

/-- Axis-aligned slab obstacle: all points with `near ≤ x ≤ far`,
modelling a wall's extent along the firing axis (wall.rs lines 12-26 give
the concrete wall a 50-unit thickness; the slab keeps it abstract). -/
structure Slab where
  near : ℝ
  far : ℝ

/-- Membership of a point in the slab obstacle. -/
def Slab.contains (w : Slab) (p : Vec2) : Prop := w.near ≤ p.x ∧ p.x ≤ w.far

/-- Contract of the external swept collision query (`cast_ray_and_get_normal`
with solid `true`): a hit is reported iff the obstacle meets the swept
segment `{origin + t • dir | 0 ≤ t ≤ toi}`. -/
def castRayHit (origin dir : Vec2) (toi : ℝ) (w : Slab) : Prop :=
  ∃ t : ℝ, 0 ≤ t ∧ t ≤ toi ∧ w.contains (origin + t • dir)

/-- Cone emission configuration of `MyPositionCone3dModifier` (bullet.rs
lines 186-199): height, base radius, top radius, and the bounds of the
configured uniform speed range. -/
structure ConeCfg where
  height : ℝ
  base_radius : ℝ
  top_radius : ℝ
  speed_lo : ℝ
  speed_hi : ℝ

/-- The debris emission descriptor registered by `setup_bullet_trail`:
height `100`, base radius `50`, top radius `0`, speed
`Value::Uniform((100.0, 500.0))` (bullet.rs lines 167-174). -/
def coneDebris : ConeCfg := ⟨100, 50, 0, 100, 500⟩

/-- Height fraction of the cone sampler: `pow(rand(), 1.0 / 3.0)`
(bullet.rs line 232 of the generated WGSL). -/
def alphaH (u : ℝ) : ℝ := u ^ ((1 : ℝ) / 3)

/-- Radial fraction of the cone sampler: `sqrt(rand())` (bullet.rs line
242 of the generated WGSL). -/
def alphaR (u : ℝ) : ℝ := Real.sqrt u

/-- Azimuth of the cone sampler: `rand() * tau` (bullet.rs line 246). -/
def coneTheta (u : ℝ) : ℝ := u * (2 * Real.pi)

/-- Sampled height `h = h0 * alpha_h` (bullet.rs line 234). -/
def coneH (c : ConeCfg) (u1 : ℝ) : ℝ := c.height * alphaH u1

/-- Radius of the cone at the sampled height:
`r0 = rt + (rb - rt) * alpha_h` (bullet.rs line 240). -/
def coneR0 (c : ConeCfg) (u1 : ℝ) : ℝ :=
  c.top_radius + (c.base_radius - c.top_radius) * alphaH u1

/-- Sampled radius `r = r0 * alpha_r` (bullet.rs line 244). -/
def coneR (c : ConeCfg) (u1 u2 : ℝ) : ℝ := coneR0 c u1 * alphaR u2

/-- Sampled local spawn position
`(r * cos(theta), h, r * sin(theta))` (bullet.rs lines 250-253). -/
def conePos (c : ConeCfg) (u1 u2 u3 : ℝ) : Vec3 :=
  ⟨coneR c u1 u2 * Real.cos (coneTheta u3), coneH c u1,
    coneR c u1 u2 * Real.sin (coneTheta u3)⟩

/-- The point `pb = (rb * alpha_r * cos(theta), h0, rb * alpha_r *
sin(theta))` toward which the emitted direction points (bullet.rs lines
257-258): base radius scaled by the radial fraction, at the full cone
height `h0`, same azimuth. -/
def coneBoundary (c : ConeCfg) (u1 u2 u3 : ℝ) : Vec3 :=
  ⟨c.base_radius * alphaR u2 * Real.cos (coneTheta u3), c.height,
    c.base_radius * alphaR u2 * Real.sin (coneTheta u3)⟩

/-- Emitted direction `normalize(pb - p)` (bullet.rs line 259). -/
def emitDir (c : ConeCfg) (u1 u2 u3 : ℝ) : Vec3 :=
  Vec3.normalize (coneBoundary c u1 u2 u3 - conePos c u1 u2 u3)

/-- Emitted speed: the generated WGSL line is `let speed = 0.0;//{4};`
(bullet.rs line 261) — the configured speed expression sits in a trailing
comment, so the emitted speed is the literal `0.0` for every descriptor and
every random draw. -/
def emitSpeed : ℝ := 0

/-- Emitted velocity `dir.xyz * speed` (bullet.rs line 263). -/
def emitVelocity (c : ConeCfg) (u1 u2 u3 : ℝ) : Vec3 :=
  emitSpeed • emitDir c u1 u2 u3

/-- Stated from the spec's words for claim C9, for comparison with
`emitDir` from the source: the direction from the sampled interior point
toward the point on the cone's lateral boundary at the same height and
azimuth (the sampled point's radius scaled up to the boundary radius `r0`
at that height), normalized. -/
def specBoundary (c : ConeCfg) (u1 u2 u3 : ℝ) : Vec3 :=
  ⟨coneR0 c u1 * Real.cos (coneTheta u3), coneH c u1,
    coneR0 c u1 * Real.sin (coneTheta u3)⟩

/-- Spec-side outward direction for claim C9: normalized vector from the
sampled point to the same-height lateral boundary point. -/
def specEmitDir (c : ConeCfg) (u1 u2 u3 : ℝ) : Vec3 :=
  Vec3.normalize (specBoundary c u1 u2 u3 - conePos c u1 u2 u3)

/-- Sum of squared components of a nonzero planar vector is positive. -/
lemma Vec2.sq_add_sq_pos (v : Vec2) (h : v ≠ ⟨0, 0⟩) : 0 < v.x ^ 2 + v.y ^ 2 := by
  rcases eq_or_ne v.x 0 with hx | hx
  · rcases eq_or_ne v.y 0 with hy | hy
    · exact absurd (Vec2.ext hx hy) h
    · have h2 : 0 < v.y ^ 2 := (sq_nonneg v.y).lt_of_ne (Ne.symm (pow_ne_zero 2 hy))
      exact add_pos_of_nonneg_of_pos (sq_nonneg v.x) h2
  · have h2 : 0 < v.x ^ 2 := (sq_nonneg v.x).lt_of_ne (Ne.symm (pow_ne_zero 2 hx))
    exact add_pos_of_pos_of_nonneg h2 (sq_nonneg v.y)

/-- Length of a nonzero planar vector is positive. -/
lemma Vec2.length_pos (v : Vec2) (h : v ≠ ⟨0, 0⟩) : 0 < v.length :=
  Real.sqrt_pos.mpr (Vec2.sq_add_sq_pos v h)

/-- Length scales by the absolute value of the scalar. -/
lemma Vec2.length_smul (c : ℝ) (v : Vec2) : (c • v).length = |c| * v.length := by
  unfold Vec2.length
  rw [Vec2.smul_def]
  rw [show (c * v.x) ^ 2 + (c * v.y) ^ 2 = c ^ 2 * (v.x ^ 2 + v.y ^ 2) by ring]
  rw [Real.sqrt_mul (sq_nonneg c), Real.sqrt_sq_eq_abs]

/-- Normalizing a nonzero planar vector yields a unit vector. -/
lemma Vec2.length_normalize (v : Vec2) (h : v ≠ ⟨0, 0⟩) : v.normalize.length = 1 := by
  have hL : 0 < v.length := Vec2.length_pos v h
  have hsq : v.length ^ 2 = v.x ^ 2 + v.y ^ 2 :=
    Real.sq_sqrt (by positivity)
  show Real.sqrt ((v.x / v.length) ^ 2 + (v.y / v.length) ^ 2) = 1
  rw [show (v.x / v.length) ^ 2 + (v.y / v.length) ^ 2
      = (v.x ^ 2 + v.y ^ 2) / v.length ^ 2 by ring]
  rw [← hsq, div_self (pow_ne_zero 2 (ne_of_gt hL)), Real.sqrt_one]

/-- Direction stored at spawn has magnitude exactly `SPEED` for every
nonzero aim vector. -/
lemma spawnDir_length (aim : Vec2) (h : aim ≠ ⟨0, 0⟩) :
    (Bullet.spawnDir aim).length = SPEED := by
  unfold Bullet.spawnDir
  rw [Vec2.length_smul, Vec2.length_normalize aim h, mul_one,
    abs_of_nonneg (by norm_num [SPEED] : (0:ℝ) ≤ SPEED)]

/-- C1: on a tick whose swept query returns a hit, `move_bullet` destroys
the projectile (returns no surviving state) without touching its remaining
lifetime — the result is the same for every value of the lifetime field —
and spawns exactly one debris effect, positioned at the impact point
returned by the query, with orientation angle
`atan2(r.y, r.x) - pi/2` computed from the reflected direction `r`, and a
fresh lifetime of `5.0` seconds independent of the projectile's remaining
lifetime. -/
theorem c1_impact_response (b : Bullet) (dt : ℝ) (pt n : Vec2) :
    (move_bullet b dt (some (pt, n))).1 = none
    ∧ (move_bullet b dt (some (pt, n))).2 =
        [⟨⟨pt.x, pt.y, 0⟩,
          atan2 (debrisDir b.dir n).y (debrisDir b.dir n).x - Real.pi / 2,
          5⟩]
    ∧ (move_bullet b dt (some (pt, n))).2.length = 1
    ∧ ∀ l : ℝ,
        move_bullet ⟨b.pos, b.dir, l⟩ dt (some (pt, n))
          = move_bullet b dt (some (pt, n)) :=
  ⟨rfl, rfl, rfl, fun _ => rfl⟩

/-- C4: the emitted particle velocity of the cone sampler is the zero
vector for every random draw — the generated shader hardcodes
`let speed = 0.0;//…` — so its magnitude `0` never lies in the configured
speed range `[100, 500]` of the debris descriptor. -/
theorem c4_speed_zero (u1 u2 u3 : ℝ) :
    emitVelocity coneDebris u1 u2 u3 = ⟨0, 0, 0⟩
    ∧ (emitVelocity coneDebris u1 u2 u3).length = 0
    ∧ ¬ (coneDebris.speed_lo ≤ (emitVelocity coneDebris u1 u2 u3).length
          ∧ (emitVelocity coneDebris u1 u2 u3).length ≤ coneDebris.speed_hi) := by
  have h0 : emitVelocity coneDebris u1 u2 u3 = ⟨0, 0, 0⟩ := by
    simp [emitVelocity, emitSpeed, Vec3.smul_eval]
  have hlen : (emitVelocity coneDebris u1 u2 u3).length = 0 := by
    rw [h0]; unfold Vec3.length; norm_num
  refine ⟨h0, hlen, ?_⟩
  rw [hlen]
  intro hc
  have : (100 : ℝ) ≤ 0 := hc.1
  norm_num at this

/-- Bullet entity as spawned by `Bullet::spawn`: it carries a remaining
lifetime inside the `Bullet` component, and no `Lifetime` component. -/
def bulletOnlyEntity : Entity := ⟨some ⟨⟨0, 0⟩, ⟨1500, 0⟩, 1⟩, none⟩

/-- C5 counterexample: the generic `despawn_after_lifetime` operation,
applied to a projectile entity carrying remaining lifetime `1.0` (inside
the `Bullet` component, as spawned), leaves the entity completely
unchanged — it neither decrements the lifetime to `3/4` nor can destroy
the projectile — because its query matches only the `Lifetime` component
that bullets do not carry.  The decrement to `3/4` is instead performed by
the separate `move_bullet` system, so the decrement-and-destroy mechanism
is not one single generic operation applied uniformly. -/
theorem c5_lifetime_counterexample :
    despawn_after_lifetime (1 / 4) bulletOnlyEntity = some bulletOnlyEntity
    ∧ bulletOnlyEntity.bullet = some ⟨⟨0, 0⟩, ⟨1500, 0⟩, 1⟩
    ∧ (moveStep ⟨⟨0, 0⟩, ⟨1500, 0⟩, 1⟩ (1 / 4)).lifetime = 3 / 4
    ∧ (3 / 4 : ℝ) ≠ 1 := by
  refine ⟨rfl, rfl, ?_, by norm_num⟩
  simp [moveStep]
  norm_num

/-- C5 amended: the lifetime mechanism is duplicated per entity kind —
debris effects are aged and destroyed by `despawn_after_lifetime` on the
`Lifetime` component, projectiles by `move_bullet`'s decrement together
with the separate `Bullet::cleanup` — but on a non-colliding tick the two
per-kind step functions agree extensionally: both map a remaining lifetime
`l` to `l - dt` and destroy the entity exactly when that result is `≤ 0`. -/
theorem c5_lifetime_amended (p d : Vec2) (l dt : ℝ) :
    (Bullet.cleanup (moveStep ⟨p, d, l⟩ dt)).map Bullet.lifetime
      = (despawn_after_lifetime dt ⟨none, some l⟩).bind Entity.lifetime := by
  by_cases h : l - dt ≤ 0 <;>
    simp [Bullet.cleanup, moveStep, despawn_after_lifetime, h]

/-- Non-colliding motion never changes the direction vector. -/
lemma runTicks_dir (b : Bullet) (ds : List ℝ) : (runTicks b ds).dir = b.dir := by
  induction ds generalizing b with
  | nil => rfl
  | cons d ds ih => simpa [runTicks, List.foldl_cons, moveStep] using ih (moveStep b d)

/-- Position after iterated non-colliding motion is the origin translated
by the direction times the total elapsed time. -/
lemma runTicks_pos (b : Bullet) (ds : List ℝ) :
    (runTicks b ds).pos = b.pos + ds.sum • b.dir := by
  induction ds generalizing b with
  | nil =>
      show b.pos = b.pos + (0:ℝ) • b.dir
      refine Vec2.ext ?_ ?_ <;> simp [Vec2.add_def, Vec2.smul_def]
  | cons d ds ih =>
      show (runTicks (moveStep b d) ds).pos = b.pos + (d :: ds).sum • b.dir
      rw [ih (moveStep b d)]
      show b.pos + d • b.dir + ds.sum • b.dir = b.pos + (d + ds.sum) • b.dir
      refine Vec2.ext ?_ ?_ <;> simp [Vec2.add_def, Vec2.smul_def] <;> ring

/-- C6: over any ticks of non-colliding motion the direction vector is
unchanged and the position equals `origin + direction * sum(delta_t_i)`;
and the spawned direction has magnitude exactly the speed constant `1500`
for every nonzero aim direction, so the magnitude invariant holds for the
entity's entire life — only the position changes. -/
theorem c6_straight_line_motion :
    (∀ (b : Bullet) (ds : List ℝ),
        (runTicks b ds).dir = b.dir
        ∧ (runTicks b ds).pos = b.pos + ds.sum • b.dir)
    ∧ (∀ pos aim : Vec2, aim ≠ ⟨0, 0⟩ →
        (Bullet.spawn pos aim).dir.length = SPEED) :=
  ⟨fun b ds => ⟨runTicks_dir b ds, runTicks_pos b ds⟩,
    fun _ aim h => spawnDir_length aim h⟩

/-- C6 witness: concrete two-tick run from the origin with direction
`(1500, 0)` lands at `(1500 * 0.3, 0)` with the direction unchanged, and a
concrete nonzero aim `(3, 4)` spawns a direction of magnitude `1500`. -/
theorem c6_straight_line_motion_witness :
    (runTicks ⟨⟨0, 0⟩, ⟨1500, 0⟩, 1⟩ [1 / 10, 1 / 5]).dir = ⟨1500, 0⟩
    ∧ (runTicks ⟨⟨0, 0⟩, ⟨1500, 0⟩, 1⟩ [1 / 10, 1 / 5]).pos
        = (⟨0, 0⟩ : Vec2) + (([1 / 10, 1 / 5] : List ℝ)).sum • (⟨1500, 0⟩ : Vec2)
    ∧ (⟨3, 4⟩ : Vec2) ≠ ⟨0, 0⟩
    ∧ (Bullet.spawn ⟨0, 0⟩ ⟨3, 4⟩).dir.length = SPEED := by
  have haim : (⟨3, 4⟩ : Vec2) ≠ ⟨0, 0⟩ := by
    intro hc
    have : (3 : ℝ) = 0 := congrArg Vec2.x hc
    norm_num at this
  have h1 := (c6_straight_line_motion.1 ⟨⟨0, 0⟩, ⟨1500, 0⟩, 1⟩ [1 / 10, 1 / 5]).1
  have h2 := (c6_straight_line_motion.1 ⟨⟨0, 0⟩, ⟨1500, 0⟩, 1⟩ [1 / 10, 1 / 5]).2
  exact ⟨h1, h2, haim, c6_straight_line_motion.2 ⟨0, 0⟩ ⟨3, 4⟩ haim⟩

/-- C10: `Bullet::spawn` has an unstated nonzero-aim-direction
precondition.  For the zero aim vector the unguarded normalization is
degenerate — in the model the direction collapses to the zero vector
(standing for the NaN components `f32` produces), so its magnitude is `0`,
not the speed constant, breaking the constant-speed invariant and all
subsequent motion — while for every nonzero aim direction the spawned
direction has magnitude exactly `1500`. -/
theorem c10_spawn_normalization :
    (∀ pos : Vec2,
        (Bullet.spawn pos ⟨0, 0⟩).dir = ⟨0, 0⟩
        ∧ (Bullet.spawn pos ⟨0, 0⟩).dir.length = 0
        ∧ (Bullet.spawn pos ⟨0, 0⟩).dir.length ≠ SPEED)
    ∧ (∀ pos aim : Vec2, aim ≠ ⟨0, 0⟩ →
        (Bullet.spawn pos aim).dir.length = SPEED) := by
  constructor
  · intro pos
    have hdir : (Bullet.spawn pos ⟨0, 0⟩).dir = ⟨0, 0⟩ := by
      show Bullet.spawnDir ⟨0, 0⟩ = ⟨0, 0⟩
      unfold Bullet.spawnDir Vec2.normalize
      refine Vec2.ext ?_ ?_ <;> simp [Vec2.smul_def]
    have hlen : (Bullet.spawn pos ⟨0, 0⟩).dir.length = 0 := by
      rw [hdir]
      show Real.sqrt ((0:ℝ) ^ 2 + (0:ℝ) ^ 2) = 0
      norm_num
    refine ⟨hdir, hlen, ?_⟩
    rw [hlen]
    norm_num [SPEED]
  · exact fun _ aim h => spawnDir_length aim h

/-- C10 witness: the zero-aim branch evaluated at the origin, and the
nonzero-aim branch at the concrete aim `(0, 1)`. -/
theorem c10_spawn_normalization_witness :
    (Bullet.spawn ⟨0, 0⟩ ⟨0, 0⟩).dir.length ≠ SPEED
    ∧ (⟨0, 1⟩ : Vec2) ≠ ⟨0, 0⟩
    ∧ (Bullet.spawn ⟨0, 0⟩ ⟨0, 1⟩).dir.length = SPEED := by
  have haim : (⟨0, 1⟩ : Vec2) ≠ ⟨0, 0⟩ := by
    intro hc
    have : (1 : ℝ) = 0 := congrArg Vec2.y hc
    norm_num at this
  exact ⟨(c10_spawn_normalization.1 ⟨0, 0⟩).2.2, haim,
    c10_spawn_normalization.2 ⟨0, 0⟩ ⟨0, 1⟩ haim⟩

/-- One lifetime-pipeline tick survives iff the decremented lifetime is
positive, in which case the surviving state is the moved bullet. -/
lemma bulletTick_eq (b : Bullet) (dt : ℝ) :
    bulletTick b dt
      = if b.lifetime - dt ≤ 0 then none else some (moveStep b dt) := rfl

/-- Running the lifetime pipeline over concatenated tick lists composes. -/
lemma runAlive_append (b : Bullet) (ds₁ ds₂ : List ℝ) :
    runAlive b (ds₁ ++ ds₂) = (runAlive b ds₁).bind fun x => runAlive x ds₂ := by
  induction ds₁ generalizing b with
  | nil => simp [runAlive]
  | cons d ds ih =>
      show runAlive b (d :: (ds ++ ds₂)) = _
      rw [runAlive]
      cases h : bulletTick b d with
      | none => simp [runAlive, h]
      | some b2 => simp [runAlive, h, ih b2]

/-- A bullet alive after the pipeline has lifetime equal to the initial
lifetime minus the total elapsed time. -/
lemma runAlive_lifetime (b : Bullet) (ds : List ℝ) (b2 : Bullet)
    (h : runAlive b ds = some b2) : b2.lifetime = b.lifetime - ds.sum := by
  induction ds generalizing b with
  | nil =>
      rw [runAlive] at h
      cases h
      simp
  | cons d ds ih =>
      rw [runAlive] at h
      rw [bulletTick_eq] at h
      by_cases hc : b.lifetime - d ≤ 0
      · rw [if_pos hc] at h
        cases h
      · rw [if_neg hc] at h
        have := ih (moveStep b d) h
        rw [this]
        show b.lifetime - d - ds.sum = b.lifetime - (d + ds.sum)
        ring

/-- A bullet alive after the pipeline with positive initial lifetime has
positive lifetime. -/
lemma runAlive_pos (b : Bullet) (ds : List ℝ) (b2 : Bullet)
    (hb : 0 < b.lifetime) (h : runAlive b ds = some b2) : 0 < b2.lifetime := by
  induction ds generalizing b with
  | nil =>
      rw [runAlive] at h
      cases h
      exact hb
  | cons d ds ih =>
      rw [runAlive] at h
      rw [bulletTick_eq] at h
      by_cases hc : b.lifetime - d ≤ 0
      · rw [if_pos hc] at h
        cases h
      · rw [if_neg hc] at h
        exact ih (moveStep b d) (lt_of_not_le hc) h

/-- C7: along ticks of the lifetime pipeline (for a projectile starting
with positive lifetime, as spawned): a bullet observed alive has positive
lifetime equal to the initial lifetime minus the elapsed time (so it is
never observed alive with a negative lifetime); the lifetime is
non-increasing across ticks of nonnegative elapsed time; and the bullet is
destroyed exactly on the first tick whose decrement drives the lifetime to
zero or below. -/
theorem c7_lifetime_temporal :
    (∀ (b : Bullet) (ds : List ℝ) (b2 : Bullet), 0 < b.lifetime →
        runAlive b ds = some b2 →
        0 < b2.lifetime ∧ b2.lifetime = b.lifetime - ds.sum)
    ∧ (∀ (b : Bullet) (ds₁ ds₂ : List ℝ) (b₂ : Bullet),
        (∀ d ∈ ds₂, 0 ≤ d) →
        runAlive b (ds₁ ++ ds₂) = some b₂ →
        ∃ b₁, runAlive b ds₁ = some b₁ ∧ b₂.lifetime ≤ b₁.lifetime)
    ∧ (∀ (b : Bullet) (ds : List ℝ) (b₁ : Bullet) (d : ℝ),
        runAlive b ds = some b₁ →
        (b₁.lifetime - d ≤ 0 → runAlive b (ds ++ [d]) = none)
        ∧ (0 < b₁.lifetime - d →
            runAlive b (ds ++ [d]) = some (moveStep b₁ d))) := by
  refine ⟨?_, ?_, ?_⟩
  · intro b ds b2 hb h
    exact ⟨runAlive_pos b ds b2 hb h, runAlive_lifetime b ds b2 h⟩
  · intro b ds₁ ds₂ b₂ hnn h
    rw [runAlive_append] at h
    rcases Option.bind_eq_some.mp h with ⟨b₁, h₁, h₂⟩
    refine ⟨b₁, h₁, ?_⟩
    rw [runAlive_lifetime b₁ ds₂ b₂ h₂]
    have : 0 ≤ ds₂.sum := List.sum_nonneg hnn
    linarith
  · intro b ds b₁ d h
    constructor
    · intro hd
      rw [runAlive_append, h]
      show runAlive b₁ [d] = none
      rw [runAlive, bulletTick_eq, if_pos hd]
    · intro hd
      rw [runAlive_append, h]
      show runAlive b₁ [d] = some (moveStep b₁ d)
      rw [runAlive, bulletTick_eq, if_neg (not_le.mpr hd)]
      rfl

/-- C7 witness: a bullet spawned with lifetime `1` survives a `0.4`-second
tick at lifetime `0.6 = 1 - 0.4`, still positive; a further `0.7`-second
tick drives the lifetime to `-0.1 ≤ 0` and destroys it in that same tick. -/
theorem c7_lifetime_temporal_witness :
    0 < (Bullet.mk ⟨0, 0⟩ ⟨1500, 0⟩ 1).lifetime
    ∧ runAlive ⟨⟨0, 0⟩, ⟨1500, 0⟩, 1⟩ [2 / 5]
        = some ⟨⟨600, 0⟩, ⟨1500, 0⟩, 1 - 2 / 5⟩
    ∧ 0 < (Bullet.mk ⟨600, 0⟩ ⟨1500, 0⟩ (1 - 2 / 5)).lifetime
    ∧ (Bullet.mk ⟨600, 0⟩ ⟨1500, 0⟩ (1 - 2 / 5)).lifetime
        = (Bullet.mk ⟨0, 0⟩ ⟨1500, 0⟩ 1).lifetime - ([2 / 5] : List ℝ).sum
    ∧ runAlive ⟨⟨0, 0⟩, ⟨1500, 0⟩, 1⟩ ([2 / 5] ++ [7 / 10]) = none := by
  have hrun : runAlive ⟨⟨0, 0⟩, ⟨1500, 0⟩, 1⟩ [2 / 5]
      = some ⟨⟨600, 0⟩, ⟨1500, 0⟩, 1 - 2 / 5⟩ := by
    rw [runAlive, bulletTick_eq]
    rw [if_neg (by norm_num : ¬((1 : ℝ) - 2 / 5 ≤ 0))]
    show runAlive (moveStep ⟨⟨0, 0⟩, ⟨1500, 0⟩, 1⟩ (2 / 5)) [] = _
    rw [runAlive]
    have : moveStep ⟨⟨0, 0⟩, ⟨1500, 0⟩, 1⟩ (2 / 5)
        = ⟨⟨600, 0⟩, ⟨1500, 0⟩, 1 - 2 / 5⟩ := by
      unfold moveStep
      refine congrArg (fun p => Bullet.mk p _ _) ?_
      refine Vec2.ext ?_ ?_ <;> simp [Vec2.add_def, Vec2.smul_def] <;> norm_num
    rw [this]
  have h1 := c7_lifetime_temporal.1 ⟨⟨0, 0⟩, ⟨1500, 0⟩, 1⟩ [2 / 5]
    ⟨⟨600, 0⟩, ⟨1500, 0⟩, 1 - 2 / 5⟩ (by norm_num) hrun
  have h3 := (c7_lifetime_temporal.2.2 ⟨⟨0, 0⟩, ⟨1500, 0⟩, 1⟩ [2 / 5]
    ⟨⟨600, 0⟩, ⟨1500, 0⟩, 1 - 2 / 5⟩ (7 / 10) hrun).1 (by norm_num)
  exact ⟨by norm_num, hrun, h1.1, h1.2, h3⟩

/-- Length of the concrete bullet direction `(1500, 0)`. -/
lemma length_dir1500 : Vec2.length ⟨1500, 0⟩ = 1500 := by
  show Real.sqrt ((1500 : ℝ) ^ 2 + (0 : ℝ) ^ 2) = 1500
  rw [show ((1500 : ℝ) ^ 2 + (0 : ℝ) ^ 2) = 1500 ^ 2 by norm_num]
  exact Real.sqrt_sq (by norm_num)

/-- C2: the swept collision query covers exactly the full frame
displacement.  The ray is cast along the unnormalized direction with
`max_toi = |dir| * dt / SPEED`, so the swept segment has length
`|dir| * max_toi = SPEED * dt` whenever `|dir| = SPEED`; consequently a
projectile with direction `(1500, 0)` and `dt = 0.1` (sweep distance
`150`) fired from the origin at a wall slab whose near face is `100` units
away (here of thickness `10`) registers a hit in that tick, even though an
instantaneous point test at the tick's destination `(150, 0)` misses the
wall. -/
theorem c2_swept_query :
    (∀ (dir : Vec2) (dt : ℝ), dir.length = SPEED →
        dir.length * maxToi dir dt = SPEED * dt)
    ∧ castRayHit ⟨0, 0⟩ ⟨1500, 0⟩ (maxToi ⟨1500, 0⟩ (1 / 10)) ⟨100, 110⟩
    ∧ ¬ Slab.contains ⟨100, 110⟩
        ((⟨0, 0⟩ : Vec2) + maxToi ⟨1500, 0⟩ (1 / 10) • (⟨1500, 0⟩ : Vec2)) := by
  have htoi : maxToi ⟨1500, 0⟩ (1 / 10) = 1 / 10 := by
    unfold maxToi
    rw [length_dir1500]
    norm_num [SPEED]
  refine ⟨?_, ?_, ?_⟩
  · intro dir dt h
    unfold maxToi
    rw [h]
    field_simp [SPEED]
  · refine ⟨1 / 15, by norm_num, ?_, ?_⟩
    · rw [htoi]; norm_num
    · constructor <;>
        simp [Vec2.add_def, Vec2.smul_def] <;> norm_num
  · rw [htoi]
    intro hc
    have : (0 : ℝ) + 1 / 10 * 1500 ≤ 110 := hc.2
    norm_num at this

/-- C2 witness: the sweep-distance identity evaluated at the concrete
direction `(1500, 0)` of magnitude `SPEED` with `dt = 0.1`. -/
theorem c2_swept_query_witness :
    Vec2.length ⟨1500, 0⟩ = SPEED
    ∧ Vec2.length ⟨1500, 0⟩ * maxToi ⟨1500, 0⟩ (1 / 10) = SPEED * (1 / 10) := by
  have hlen : Vec2.length ⟨1500, 0⟩ = SPEED := by
    rw [length_dir1500]; norm_num [SPEED]
  exact ⟨hlen, c2_swept_query.1 ⟨1500, 0⟩ (1 / 10) hlen⟩

/-- Length of the incoming direction `(1, -1)` is the square root of two. -/
lemma length_one_negone : Vec2.length ⟨1, -1⟩ = Real.sqrt 2 := by
  show Real.sqrt ((1 : ℝ) ^ 2 + (-1 : ℝ) ^ 2) = Real.sqrt 2
  norm_num

/-- Evaluation of the reflected direction at the incoming direction
`(1, -1)` and unit normal `(0, 1)`: both components equal `√2 / 2`. -/
lemma debrisDir_eval :
    debrisDir ⟨1, -1⟩ ⟨0, 1⟩ = ⟨Real.sqrt 2 / 2, Real.sqrt 2 / 2⟩ := by
  have h2 : (0 : ℝ) < Real.sqrt 2 := Real.sqrt_pos.mpr (by norm_num)
  have hsq : Real.sqrt 2 * Real.sqrt 2 = 2 := Real.mul_self_sqrt (by norm_num)
  have hnorm : Vec2.normalize ⟨1, -1⟩
      = ⟨1 / Real.sqrt 2, -1 / Real.sqrt 2⟩ := by
    unfold Vec2.normalize
    rw [length_one_negone]
  unfold debrisDir
  rw [hnorm]
  unfold Vec2.dot
  refine Vec2.ext ?_ ?_ <;>
    simp only [Vec2.sub_def, Vec2.smul_def] <;>
    field_simp <;>
    nlinarith [hsq, h2]

/-- Unit length of the evaluated reflected direction. -/
lemma debrisDir_eval_length : (debrisDir ⟨1, -1⟩ ⟨0, 1⟩).length = 1 := by
  have hsq : Real.sqrt 2 * Real.sqrt 2 = 2 := Real.mul_self_sqrt (by norm_num)
  rw [debrisDir_eval]
  show Real.sqrt ((Real.sqrt 2 / 2) ^ 2 + (Real.sqrt 2 / 2) ^ 2) = 1
  rw [show (Real.sqrt 2 / 2) ^ 2 + (Real.sqrt 2 / 2) ^ 2
      = (Real.sqrt 2 * Real.sqrt 2) / 2 by ring]
  rw [hsq]
  norm_num

/-- C3 counterexample: at incoming direction `d = (1, -1)` and unit normal
`n = (0, 1)` the reflected direction computed by the code is the unit
vector `(√2/2, √2/2)`, not `(1, 1)` (the x-components `√2/2 < 1` differ by
about `0.29`, far beyond floating-point tolerance), and its magnitude `1`
differs from `|d| = √2`: the code normalizes `d` before reflecting, so
`|r| = 1 ≠ |d|`. -/
theorem c3_reflection_counterexample :
    debrisDir ⟨1, -1⟩ ⟨0, 1⟩ ≠ ⟨1, 1⟩
    ∧ (debrisDir ⟨1, -1⟩ ⟨0, 1⟩).length ≠ (⟨1, -1⟩ : Vec2).length := by
  have hmul : Real.sqrt 2 * Real.sqrt 2 = 2 := Real.mul_self_sqrt (by norm_num)
  have hnn : (0 : ℝ) ≤ Real.sqrt 2 := Real.sqrt_nonneg 2
  have hlt : Real.sqrt 2 < 2 := by nlinarith
  have hgt : 1 < Real.sqrt 2 := by nlinarith
  constructor
  · intro h
    have hx : Real.sqrt 2 / 2 = 1 := by
      have := congrArg Vec2.x h
      rw [debrisDir_eval] at this
      exact this
    nlinarith
  · rw [debrisDir_eval_length, length_one_negone]
    intro h
    rw [← h] at hgt
    norm_num at hgt

/-- C3 amended: for incoming direction `d = (1, -1)` and unit normal
`n = (0, 1)`, the reflected direction computed from the normalized incoming
direction equals `(√2/2, √2/2)` — the unit vector along `(1, 1)`, a
positive scalar multiple of `(1, 1)`, so the horizontal component is
preserved and the vertical one flipped in direction — and its magnitude
equals `1`, the magnitude of `normalize(d)`. -/
theorem c3_reflection_amended :
    debrisDir ⟨1, -1⟩ ⟨0, 1⟩ = ⟨Real.sqrt 2 / 2, Real.sqrt 2 / 2⟩
    ∧ (debrisDir ⟨1, -1⟩ ⟨0, 1⟩).length = 1
    ∧ debrisDir ⟨1, -1⟩ ⟨0, 1⟩ = (Real.sqrt 2 / 2) • (⟨1, 1⟩ : Vec2)
    ∧ 0 < Real.sqrt 2 / 2
    ∧ (Vec2.normalize ⟨1, -1⟩).length = 1 := by
  have h2 : (0 : ℝ) < Real.sqrt 2 := Real.sqrt_pos.mpr (by norm_num)
  refine ⟨debrisDir_eval, debrisDir_eval_length, ?_, by positivity, ?_⟩
  · rw [debrisDir_eval]
    refine Vec2.ext ?_ ?_ <;> simp [Vec2.smul_def]
  · refine Vec2.length_normalize ⟨1, -1⟩ ?_
    intro hc
    have : (1 : ℝ) = 0 := congrArg Vec2.x hc
    norm_num at this

/-- C8: inverse-CDF structure of the cone sampler.  For nonnegative
samples and thresholds, the height fraction `alpha_h = u1^(1/3)` lies below
`x` exactly when `u1 ≤ x^3` (cube CDF) and the radius fraction
`alpha_r = sqrt(u2)` lies below `x` exactly when `u2 ≤ x^2` (square CDF,
at any fixed height) — uniform-by-volume density, not a linear CDF — with
the radius at the sampled height linearly interpolated as
`r0 = rt + (rb - rt) * alpha_h` and the local spawn position equal to
`(r*cos(theta), h, r*sin(theta))`. -/
theorem c8_cone_cdf :
    (∀ u x : ℝ, 0 ≤ u → 0 ≤ x → (alphaH u ≤ x ↔ u ≤ x ^ 3))
    ∧ (∀ u x : ℝ, 0 ≤ u → 0 ≤ x → (alphaR u ≤ x ↔ u ≤ x ^ 2))
    ∧ (∀ (c : ConeCfg) (u1 : ℝ),
        coneR0 c u1 = c.top_radius + (c.base_radius - c.top_radius) * alphaH u1)
    ∧ (∀ (c : ConeCfg) (u1 u2 u3 : ℝ),
        conePos c u1 u2 u3
          = ⟨coneR c u1 u2 * Real.cos (coneTheta u3), c.height * alphaH u1,
              coneR c u1 u2 * Real.sin (coneTheta u3)⟩) := by
  refine ⟨?_, ?_, fun _ _ => rfl, fun _ _ _ _ => rfl⟩
  · intro u x hu hx
    unfold alphaH
    rw [show ((1 : ℝ) / 3) = ((3 : ℝ))⁻¹ by norm_num]
    rw [Real.rpow_inv_le_iff_of_pos hu hx (by norm_num)]
    rw [show ((3 : ℝ)) = ((3 : ℕ) : ℝ) by norm_num, Real.rpow_natCast]
  · intro u x hu hx
    unfold alphaR
    rw [Real.sqrt_le_iff]
    constructor
    · exact fun h => h.2
    · exact fun h => ⟨hx, h⟩

/-- C8 witness: the two CDF equivalences evaluated at the concrete sample
`u = 1/8` (respectively `1/4`) and threshold `x = 1/2`. -/
theorem c8_cone_cdf_witness :
    (0 : ℝ) ≤ 1 / 8
    ∧ (0 : ℝ) ≤ 1 / 4
    ∧ (0 : ℝ) ≤ 1 / 2
    ∧ (alphaH (1 / 8) ≤ 1 / 2 ↔ (1 / 8 : ℝ) ≤ (1 / 2) ^ 3)
    ∧ (alphaR (1 / 4) ≤ 1 / 2 ↔ (1 / 4 : ℝ) ≤ (1 / 2) ^ 2) :=
  ⟨by norm_num, by norm_num, by norm_num,
    c8_cone_cdf.1 (1 / 8) (1 / 2) (by norm_num) (by norm_num),
    c8_cone_cdf.2.1 (1 / 4) (1 / 2) (by norm_num) (by norm_num)⟩

/-- Height fraction at the concrete sample `u1 = 1/8`. -/
lemma alphaH_eighth : alphaH (1 / 8) = 1 / 2 := by
  unfold alphaH
  rw [show ((1 : ℝ) / 8) = (1 / 2 : ℝ) ^ ((3 : ℕ) : ℝ) by
    rw [Real.rpow_natCast]; norm_num]
  rw [← Real.rpow_mul (by norm_num : (0 : ℝ) ≤ 1 / 2)]
  norm_num

/-- Radial fraction at the concrete sample `u2 = 1/4`. -/
lemma alphaR_quarter : alphaR (1 / 4) = 1 / 2 := by
  unfold alphaR
  rw [show ((1 : ℝ) / 4) = (1 / 2 : ℝ) ^ 2 by norm_num]
  exact Real.sqrt_sq (by norm_num)

/-- Vector from the sampled point to the code's target point `pb`
evaluated at the debris cone with samples `u1 = 1/8`, `u2 = 1/4`,
`u3 = 0`. -/
lemma coneDiff_eval :
    coneBoundary coneDebris (1 / 8) (1 / 4) 0 - conePos coneDebris (1 / 8) (1 / 4) 0
      = ⟨25 / 2, 50, 0⟩ := by
  have hth : coneTheta 0 = 0 := by simp [coneTheta]
  refine Vec3.ext ?_ ?_ ?_ <;>
    simp [coneBoundary, conePos, coneR, coneR0, coneH, coneDebris, hth,
      Vec3.sub_eval] <;>
    norm_num [alphaH_eighth, alphaR_quarter]

/-- Vector from the sampled point to the spec's same-height boundary point
at the same samples. -/
lemma specDiff_eval :
    specBoundary coneDebris (1 / 8) (1 / 4) 0 - conePos coneDebris (1 / 8) (1 / 4) 0
      = ⟨25 / 2, 0, 0⟩ := by
  have hth : coneTheta 0 = 0 := by simp [coneTheta]
  refine Vec3.ext ?_ ?_ ?_ <;>
    simp [specBoundary, conePos, coneR, coneR0, coneH, coneDebris, hth,
      Vec3.sub_eval] <;>
    norm_num [alphaH_eighth, alphaR_quarter]

/-- C9 counterexample: at the debris cone (height `100`, base radius `50`,
top radius `0`) with samples `u1 = 1/8` (height fraction `1/2`),
`u2 = 1/4` (radial fraction `1/2`), `u3 = 0`, the code's emitted direction
is the normalization of `(12.5, 50, 0)` — pointing up toward the base
plane at height `100` — whereas the direction toward the lateral boundary
point at the same height and azimuth is the horizontal unit vector
`(1, 0, 0)`: the two differ (their height components are `50/|(12.5,50,0)|
> 0` versus `0`). -/
theorem c9_outward_dir_counterexample :
    emitDir coneDebris (1 / 8) (1 / 4) 0 ≠ specEmitDir coneDebris (1 / 8) (1 / 4) 0 := by
  intro h
  have hy := congrArg Vec3.y h
  rw [show emitDir coneDebris (1 / 8) (1 / 4) 0
      = Vec3.normalize ⟨25 / 2, 50, 0⟩ by
    unfold emitDir; rw [coneDiff_eval]] at hy
  rw [show specEmitDir coneDebris (1 / 8) (1 / 4) 0
      = Vec3.normalize ⟨25 / 2, 0, 0⟩ by
    unfold specEmitDir; rw [specDiff_eval]] at hy
  have hlen : (0 : ℝ) < Vec3.length ⟨25 / 2, 50, 0⟩ := by
    unfold Vec3.length
    apply Real.sqrt_pos.mpr
    norm_num
  have hzero : (50 : ℝ) / Vec3.length ⟨25 / 2, 50, 0⟩ = 0 / Vec3.length ⟨25 / 2, 0, 0⟩ := hy
  rw [zero_div] at hzero
  have : (50 : ℝ) = 0 := by
    field_simp at hzero
  norm_num at this

/-- Positive scaling does not change the normalization of a spatial
vector. -/
lemma Vec3.normalize_smul (k : ℝ) (hk : 0 < k) (v : Vec3) :
    Vec3.normalize (k • v) = Vec3.normalize v := by
  have hlen : (k • v).length = k * v.length := by
    unfold Vec3.length
    rw [Vec3.smul_eval]
    rw [show (k * v.x) ^ 2 + (k * v.y) ^ 2 + (k * v.z) ^ 2
        = k ^ 2 * (v.x ^ 2 + v.y ^ 2 + v.z ^ 2) by ring]
    rw [Real.sqrt_mul (sq_nonneg k), Real.sqrt_sq hk.le]
  unfold Vec3.normalize
  rw [hlen, Vec3.smul_eval]
  refine Vec3.ext ?_ ?_ ?_ <;>
    exact mul_div_mul_left _ _ (ne_of_gt hk)

/-- C9 amended: for an apex cone (`top_radius = 0`) and any interior
height sample (`0 < u1 < 1`), the emitted direction is the normalization
of the sampled position itself — it points radially away from the cone's
apex (the local origin) through the sampled point, toward the base-plane
point at height `h0` whose radius is the base radius scaled by the radial
fraction — not toward the lateral boundary point at the sampled point's
own height. -/
theorem c9_outward_dir_amended (c : ConeCfg) (u1 u2 u3 : ℝ)
    (h0 : c.top_radius = 0) (h1 : 0 < u1) (h2 : u1 < 1) :
    emitDir c u1 u2 u3 = Vec3.normalize (conePos c u1 u2 u3) := by
  have ha0 : 0 < alphaH u1 := Real.rpow_pos_of_pos h1 _
  have ha1 : alphaH u1 < 1 := Real.rpow_lt_one h1.le h2 (by norm_num)
  have hpos : conePos c u1 u2 u3 = alphaH u1 • coneBoundary c u1 u2 u3 := by
    refine Vec3.ext ?_ ?_ ?_ <;>
      simp [conePos, coneBoundary, coneR, coneR0, coneH, h0, Vec3.smul_eval] <;>
      ring
  have hdiff : coneBoundary c u1 u2 u3 - conePos c u1 u2 u3
      = (1 - alphaH u1) • coneBoundary c u1 u2 u3 := by
    rw [hpos]
    refine Vec3.ext ?_ ?_ ?_ <;>
      simp [Vec3.sub_eval, Vec3.smul_eval] <;>
      ring
  unfold emitDir
  rw [hdiff, Vec3.normalize_smul (1 - alphaH u1) (by linarith), hpos,
    Vec3.normalize_smul (alphaH u1) ha0]

/-- C9 amended witness: the identity evaluated at the debris cone (top
radius `0`) with the concrete interior samples `u1 = 1/8`, `u2 = 1/4`,
`u3 = 0`. -/
theorem c9_outward_dir_amended_witness :
    coneDebris.top_radius = 0
    ∧ (0 : ℝ) < 1 / 8
    ∧ (1 / 8 : ℝ) < 1
    ∧ emitDir coneDebris (1 / 8) (1 / 4) 0
        = Vec3.normalize (conePos coneDebris (1 / 8) (1 / 4) 0) :=
  ⟨rfl, by norm_num, by norm_num,
    c9_outward_dir_amended coneDebris (1 / 8) (1 / 4) 0 rfl
      (by norm_num) (by norm_num)⟩
